import Mathlib

/-!
Shallow embedding of the persistence and API core of the VisionSpeak server
(src/server.ts): an SQLite-backed store with two tables (words, progress)
and three HTTP endpoints (GET /api/words, POST /api/words, GET /api/stats).

Modelling choices, each traceable to the source:
* Timestamps are natural numbers. SQLite CURRENT_TIMESTAMP and datetime
  have one-second resolution, so distinct requests may share a timestamp.
  Each SQL statement reads the clock itself: the words INSERT evaluates
  CURRENT_TIMESTAMP for created_at and the separate progress INSERT
  evaluates datetime for next_review, so one POST /api/words request
  carries two clock values, `nowW` for the word row and `nowP` for the
  progress row; they agree unless the second boundary is crossed between
  the two statements.
* AUTOINCREMENT primary keys are modelled by a per-table sequence counter
  held in the state: the next id is always one more than the largest id
  ever assigned, and ids are never reused.
* The `word` column is declared TEXT NOT NULL, so binding a null (or absent)
  surface text makes the word INSERT itself fail; the exception propagates
  out of the route handler before the progress INSERT runs, leaving the
  store unchanged. Fallibility is modelled with Except.
* SELECT ... ORDER BY created_at DESC scans rows in rowid (insertion) order
  and sorts them by created_at descending, leaving rows with equal
  timestamps in insertion order; `sortDesc` is a stable insertion sort
  implementing exactly that.
-/

namespace VisionSpeak

/-- A request body for POST /api/words. Absent or null JSON fields are
`none`; the route handler destructures exactly these six fields. -/
structure Payload where
  word : Option String
  context_sentence : Option String
  meaning : Option String
  phonetic_us : Option String
  phonetic_uk : Option String
  image_url : Option String
deriving DecidableEq

/-- A row of the `words` table. The `word` column is NOT NULL, so the
stored surface text is a plain String; the other columns are nullable. -/
structure WordRow where
  id : Nat
  word : String
  context_sentence : Option String
  meaning : Option String
  phonetic_us : Option String
  phonetic_uk : Option String
  image_url : Option String
  created_at : Nat
deriving DecidableEq

/-- A row of the `progress` table. -/
structure ProgressRow where
  id : Nat
  word_id : Nat
  status : String
  last_reviewed : Option Nat
  next_review : Option Nat
deriving DecidableEq

/-- The database state: both tables in rowid (insertion) order, plus the
AUTOINCREMENT sequence counter of each table (the largest id ever
assigned; 0 when none). -/
structure DB where
  words : List WordRow
  progress : List ProgressRow
  wordSeq : Nat
  progressSeq : Nat
deriving DecidableEq

/-- The freshly initialized database: both tables empty. -/
def DB.empty : DB := ⟨[], [], 0, 0⟩

/-- INSERT INTO words (word, context_sentence, meaning, phonetic_us,
phonetic_uk, image_url) VALUES (?, ?, ?, ?, ?, ?). A null surface text
violates the NOT NULL constraint and the statement fails; otherwise the row
is appended with the next AUTOINCREMENT id and created_at defaulted to this
statement's clock reading, and lastInsertRowid is returned alongside the
new state. -/
def insertWord (db : DB) (p : Payload) (now : Nat) : Except String (DB × Nat) :=
  match p.word with
  | none => Except.error "NOT NULL constraint failed: words.word"
  | some w =>
    let id := db.wordSeq + 1
    Except.ok
      ({ db with
          words := db.words ++
            [⟨id, w, p.context_sentence, p.meaning, p.phonetic_us,
              p.phonetic_uk, p.image_url, now⟩],
          wordSeq := id }, id)

/-- INSERT INTO progress (word_id, next_review) VALUES (?, datetime(..)):
status defaults to "new", last_reviewed to null, and next_review is this
statement's own clock reading. -/
def insertProgress (db : DB) (wid : Nat) (now : Nat) : DB :=
  { db with
      progress := db.progress ++ [⟨db.progressSeq + 1, wid, "new", none, some now⟩],
      progressSeq := db.progressSeq + 1 }

/-- The POST /api/words handler body: insert the word row, then insert its
progress row, and answer with the word's lastInsertRowid. Each of the two
statements reads the clock itself, so the request carries two clock values:
`nowW` observed by the words INSERT and `nowP` observed by the progress
INSERT (equal unless the second ticks between the statements). If the word
INSERT fails the thrown error propagates before the progress INSERT runs. -/
def createWord (db : DB) (p : Payload) (nowW nowP : Nat) :
    Except String (DB × Nat) :=
  match insertWord db p nowW with
  | Except.error e => Except.error e
  | Except.ok (db1, id) => Except.ok (insertProgress db1 id nowP, id)

/-- Stable insertion step for the descending created_at sort: x is placed
before the first element whose created_at does not exceed x's, so among
equal timestamps earlier-inserted rows stay first. -/
def insertDesc (x : WordRow) : List WordRow → List WordRow
  | [] => [x]
  | y :: ys =>
    if x.created_at < y.created_at then y :: insertDesc x ys
    else x :: y :: ys

/-- Stable sort of the rows by created_at descending, as produced by
SELECT * FROM words ORDER BY created_at DESC over a rowid-order scan. -/
def sortDesc : List WordRow → List WordRow
  | [] => []
  | y :: ys => insertDesc y (sortDesc ys)

/-- The GET /api/words handler body. -/
def listWords (db : DB) : List WordRow := sortDesc db.words

/-- The GET /api/stats handler body: SELECT COUNT(*) FROM words. -/
def stats (db : DB) : Nat := db.words.length

/-- The API surface of the server. -/
inductive Request where
  | listWords : Request
  | getStats : Request
  | createWord : Payload → Request
deriving DecidableEq

/-- JSON responses of the three routes; a thrown storage error surfaces as
a server error with the store untouched. -/
inductive Response where
  | wordList : List WordRow → Response
  | statsCount : Nat → Response
  | created : Nat → Response
  | serverError : String → Response
deriving DecidableEq

/-- Dispatch one HTTP request against the store. `nowW` and `nowP` are the
clock readings of the two INSERT statements of a creation request (the GET
routes never read the clock), returning the state afterwards and the
response. -/
def handle (db : DB) (nowW nowP : Nat) : Request → DB × Response
  | Request.listWords => (db, Response.wordList (listWords db))
  | Request.getStats => (db, Response.statsCount (stats db))
  | Request.createWord p =>
    match createWord db p nowW nowP with
    | Except.error e => (db, Response.serverError e)
    | Except.ok (db1, id) => (db1, Response.created id)

/-- Run a sequence of POST /api/words requests. Each entry carries the
payload and the two per-statement clock readings of that request; failed
creations leave the state unchanged. -/
def runCreates (db : DB) : List (Payload × Nat × Nat) → DB
  | [] => db
  | op :: rest =>
    match createWord db op.1 op.2.1 op.2.2 with
    | Except.error _ => runCreates db rest
    | Except.ok r => runCreates r.1 rest

/-- The progress rows referencing a given word id (the rows a SELECT with
WHERE word_id = wid would return). -/
def progressFor (db : DB) (wid : Nat) : List ProgressRow :=
  db.progress.filter (fun q => q.word_id == wid)

/-- Store well-formedness: every id is bounded by its table's sequence
counter, word ids strictly increase in insertion order, and every word has
exactly one progress row, bearing status "new" and a non-null next_review
timestamp. -/
def DB.Inv (db : DB) : Prop :=
  (∀ w ∈ db.words, w.id ≤ db.wordSeq) ∧
  (∀ q ∈ db.progress, q.word_id ≤ db.wordSeq) ∧
  db.words.Pairwise (fun a b => a.id < b.id) ∧
  (∀ w ∈ db.words,
    (progressFor db w.id).map (fun q => (q.status, q.next_review.isSome)) =
      [("new", true)])

/-- The stronger synchronized-clock invariant: every word's single
progress row carries next_review equal to the word's creation instant.
It holds when no creation request straddled a second boundary between its
two INSERT statements. -/
def DB.SyncInv (db : DB) : Prop :=
  ∀ w ∈ db.words,
    (progressFor db w.id).map (fun q => (q.status, q.next_review)) =
      [("new", some w.created_at)]

/-! ### Basic lemmas about the embedded operations -/

/-- Inserting into the sorted list is a permutation of consing. -/
theorem insertDesc_perm (x : WordRow) (l : List WordRow) :
    (insertDesc x l).Perm (x :: l) := by
  induction l with
  | nil => exact List.Perm.refl _
  | cons y ys ih =>
    simp only [insertDesc]
    split
    · exact (ih.cons y).trans (List.Perm.swap x y ys)
    · exact List.Perm.refl _

/-- The descending sort permutes the table rows. -/
theorem sortDesc_perm (l : List WordRow) : (sortDesc l).Perm l := by
  induction l with
  | nil => exact List.Perm.refl _
  | cons y ys ih =>
    exact (insertDesc_perm y (sortDesc ys)).trans (ih.cons y)

/-- The sort does not change the number of rows. -/
theorem length_sortDesc (l : List WordRow) : (sortDesc l).length = l.length :=
  (sortDesc_perm l).length_eq

/-- The sort does not change which rows are present. -/
theorem mem_sortDesc {x : WordRow} {l : List WordRow} :
    x ∈ sortDesc l ↔ x ∈ l :=
  (sortDesc_perm l).mem_iff

/-- A row with a created_at strictly above every timestamp in the list
sorts to the front, wherever it sits in insertion order. -/
theorem sortDesc_append_singleton (l : List WordRow) (x : WordRow)
    (h : ∀ y ∈ l, y.created_at < x.created_at) :
    ∃ t, sortDesc (l ++ [x]) = x :: t := by
  induction l with
  | nil => exact ⟨[], rfl⟩
  | cons a l ih =>
    obtain ⟨t, ht⟩ := ih (fun y hy => h y (List.mem_cons_of_mem a hy))
    refine ⟨insertDesc a t, ?_⟩
    show insertDesc a (sortDesc (l ++ [x])) = x :: insertDesc a t
    rw [ht]
    show (if a.created_at < x.created_at then x :: insertDesc a t
      else a :: x :: t) = x :: insertDesc a t
    rw [if_pos (h a (List.mem_cons_self a l))]

/-- The word row a successful creation appends: the payload's fields
verbatim, extended with the assigned id and the words-INSERT clock
reading as creation instant. -/
def newWordRow (db : DB) (p : Payload) (now : Nat) (w : String) : WordRow :=
  ⟨db.wordSeq + 1, w, p.context_sentence, p.meaning, p.phonetic_us,
    p.phonetic_uk, p.image_url, now⟩

/-- The state after a successful creation: word row and progress row
appended (each bearing its own statement's clock reading), both sequence
counters advanced. -/
def afterCreate (db : DB) (p : Payload) (nowW nowP : Nat) (w : String) : DB :=
  { words := db.words ++ [newWordRow db p nowW w],
    progress := db.progress ++
      [⟨db.progressSeq + 1, db.wordSeq + 1, "new", none, some nowP⟩],
    wordSeq := db.wordSeq + 1,
    progressSeq := db.progressSeq + 1 }

/-- Characterization of a successful creation: the word row and its
progress row are appended and both sequence counters advance. -/
theorem createWord_some (db : DB) (p : Payload) (nowW nowP : Nat) (w : String)
    (hw : p.word = some w) :
    createWord db p nowW nowP =
      Except.ok (afterCreate db p nowW nowP w, db.wordSeq + 1) := by
  simp [createWord, insertWord, insertProgress, hw, afterCreate, newWordRow]

/-- Characterization of a failed creation: a null surface text violates
the NOT NULL constraint of the words table. -/
theorem createWord_none (db : DB) (p : Payload) (nowW nowP : Nat)
    (hw : p.word = none) :
    createWord db p nowW nowP =
      Except.error "NOT NULL constraint failed: words.word" := by
  simp [createWord, insertWord, hw]

/-- Inversion: any successful creation has the shape of createWord_some. -/
theorem createWord_ok_inversion {db : DB} {p : Payload} {nowW nowP : Nat}
    {db1 : DB} {id : Nat}
    (h : createWord db p nowW nowP = Except.ok (db1, id)) :
    ∃ w, p.word = some w ∧ id = db.wordSeq + 1 ∧
      db1 = afterCreate db p nowW nowP w := by
  cases hw : p.word with
  | none =>
    rw [createWord_none db p nowW nowP hw] at h
    exact absurd h (by simp)
  | some w =>
    rw [createWord_some db p nowW nowP w hw] at h
    have h2 := Except.ok.inj h
    refine ⟨w, rfl, ?_, ?_⟩
    · exact (Prod.mk.injEq .. ▸ h2).2.symm
    · exact (Prod.mk.injEq .. ▸ h2).1.symm

/-- The new progress row is invisible to the progress lookup of any
previously existing word id. -/
theorem progressFor_afterCreate_old (db : DB) (p : Payload) (nowW nowP : Nat)
    (w : String) (wid : Nat) (hle : wid ≤ db.wordSeq) :
    progressFor (afterCreate db p nowW nowP w) wid = progressFor db wid := by
  have hne : (db.wordSeq + 1 == wid) = false := by
    simp only [beq_eq_false_iff_ne, ne_eq]
    omega
  simp [progressFor, afterCreate, List.filter_append, hne]

/-- No pre-existing progress row references the freshly assigned word id,
so the new word's progress lookup returns exactly the new row. -/
theorem progressFor_afterCreate_new (db : DB) (p : Payload) (nowW nowP : Nat)
    (w : String) (hqs : ∀ q ∈ db.progress, q.word_id ≤ db.wordSeq) :
    progressFor (afterCreate db p nowW nowP w) (db.wordSeq + 1) =
      [⟨db.progressSeq + 1, db.wordSeq + 1, "new", none, some nowP⟩] := by
  have hold : db.progress.filter (fun q => q.word_id == db.wordSeq + 1) = [] := by
    refine List.filter_eq_nil_iff.mpr ?_
    intro q hq
    have := hqs q hq
    simp only [beq_iff_eq]
    omega
  simp [progressFor, afterCreate, List.filter_append, hold]

/-- The empty database is well-formed. -/
theorem Inv_empty : DB.empty.Inv := by
  refine ⟨?_, ?_, ?_, ?_⟩ <;> simp [DB.empty]

/-- The empty database satisfies the synchronized-clock invariant. -/
theorem SyncInv_empty : DB.empty.SyncInv := by
  intro w hw
  simp [DB.empty] at hw

/-- One successful creation, with arbitrary clock readings in its two
INSERT statements, preserves well-formedness. -/
theorem Inv_createWord {db : DB} {p : Payload} {nowW nowP : Nat} {db1 : DB}
    {id : Nat} (hInv : db.Inv)
    (h : createWord db p nowW nowP = Except.ok (db1, id)) : db1.Inv := by
  obtain ⟨hws, hqs, hpw, hpr⟩ := hInv
  obtain ⟨w, hw, hid, hdb⟩ := createWord_ok_inversion h
  subst hdb
  refine ⟨?_, ?_, ?_, ?_⟩
  · intro x hx
    rcases List.mem_append.mp hx with hx | hx
    · exact Nat.le_succ_of_le (hws x hx)
    · simp only [List.mem_singleton] at hx; subst hx; exact Nat.le_refl _
  · intro q hq
    rcases List.mem_append.mp hq with hq | hq
    · exact Nat.le_succ_of_le (hqs q hq)
    · simp only [List.mem_singleton] at hq; subst hq; exact Nat.le_refl _
  · refine List.pairwise_append.mpr ⟨hpw, List.pairwise_singleton .., ?_⟩
    intro a ha b hb
    simp only [List.mem_singleton] at hb; subst hb
    exact Nat.lt_succ_of_le (hws a ha)
  · intro x hx
    rcases List.mem_append.mp hx with hx | hx
    · rw [progressFor_afterCreate_old db p nowW nowP w x.id (hws x hx)]
      exact hpr x hx
    · simp only [List.mem_singleton] at hx; subst hx
      rw [show (newWordRow db p nowW w).id = db.wordSeq + 1 from rfl,
        progressFor_afterCreate_new db p nowW nowP w hqs]
      simp

/-- One successful creation whose two INSERT statements observed the same
clock second preserves the synchronized-clock invariant. -/
theorem SyncInv_createWord {db : DB} {p : Payload} {now : Nat} {db1 : DB}
    {id : Nat} (hInv : db.Inv) (hSync : db.SyncInv)
    (h : createWord db p now now = Except.ok (db1, id)) : db1.SyncInv := by
  obtain ⟨hws, hqs, hpw, hpr⟩ := hInv
  obtain ⟨w, hw, hid, hdb⟩ := createWord_ok_inversion h
  subst hdb
  intro x hx
  rcases List.mem_append.mp hx with hx | hx
  · rw [progressFor_afterCreate_old db p now now w x.id (hws x hx)]
    exact hSync x hx
  · simp only [List.mem_singleton] at hx; subst hx
    rw [show (newWordRow db p now w).id = db.wordSeq + 1 from rfl,
      progressFor_afterCreate_new db p now now w hqs]
    simp [newWordRow]

/-- Running any trace of creations from a well-formed state stays
well-formed. -/
theorem Inv_runCreates (db : DB) (hInv : db.Inv)
    (ops : List (Payload × Nat × Nat)) : (runCreates db ops).Inv := by
  induction ops generalizing db with
  | nil => exact hInv
  | cons op rest ih =>
    simp only [runCreates]
    cases h : createWord db op.1 op.2.1 op.2.2 with
    | error e => exact ih db hInv
    | ok r => exact ih r.1 (Inv_createWord hInv (by rw [h]))

/-- Running a trace whose requests each completed within a single clock
second preserves the synchronized-clock invariant. -/
theorem SyncInv_runCreates (db : DB) (hInv : db.Inv) (hSync : db.SyncInv)
    (ops : List (Payload × Nat × Nat))
    (hsame : ∀ x ∈ ops, x.2.1 = x.2.2) : (runCreates db ops).SyncInv := by
  induction ops generalizing db with
  | nil => exact hSync
  | cons op rest ih =>
    simp only [runCreates]
    cases h : createWord db op.1 op.2.1 op.2.2 with
    | error e =>
      exact ih db hInv hSync (fun x hx => hsame x (List.mem_cons_of_mem op hx))
    | ok r =>
      have heq : op.2.1 = op.2.2 := hsame op (List.mem_cons_self op rest)
      rw [heq] at h
      exact ih r.1 (Inv_createWord hInv (by rw [h]))
        (SyncInv_createWord hInv hSync (by rw [h]))
        (fun x hx => hsame x (List.mem_cons_of_mem op hx))

/-- If every payload in the trace carries a surface text, every creation
succeeds and each one adds exactly one word row. -/
theorem runCreates_words_length (db : DB) (ops : List (Payload × Nat × Nat))
    (hvalid : ∀ x ∈ ops, (x.1).word.isSome) :
    (runCreates db ops).words.length = db.words.length + ops.length := by
  induction ops generalizing db with
  | nil => simp [runCreates]
  | cons op rest ih =>
    obtain ⟨w, hw⟩ := Option.isSome_iff_exists.mp
      (hvalid op (List.mem_cons_self op rest))
    simp only [runCreates, createWord_some db op.1 op.2.1 op.2.2 w hw]
    rw [ih _ (fun x hx => hvalid x (List.mem_cons_of_mem op hx))]
    simp only [afterCreate, List.length_append, List.length_cons,
      List.length_nil]
    omega

/-! ### Concrete fixtures used by counterexamples and witnesses -/

/-- A payload with surface text alpha and all optional fields null. -/
def pAlpha : Payload := ⟨some "alpha", none, none, none, none, none⟩

/-- A payload with surface text beta and all optional fields null. -/
def pBeta : Payload := ⟨some "beta", none, none, none, none, none⟩

/-- A payload whose surface text is null (or absent from the JSON body). -/
def pNull : Payload := ⟨none, some "some context", none, none, none, none⟩

/-- The word row produced by creating pAlpha in the empty store at clock 0. -/
def rowAlpha : WordRow := ⟨1, "alpha", none, none, none, none, none, 0⟩

/-- The store after creating pAlpha in the empty store, both statements at
clock 0. -/
def dbAlpha : DB :=
  ⟨[rowAlpha], [⟨1, 1, "new", none, some 0⟩], 1, 1⟩

/-- The store after additionally creating pBeta at the same clock value 0
(two requests inside the same one-second timestamp granule). -/
def dbTie : DB :=
  ⟨[rowAlpha, ⟨2, "beta", none, none, none, none, none, 0⟩],
   [⟨1, 1, "new", none, some 0⟩, ⟨2, 2, "new", none, some 0⟩], 2, 2⟩

/-- The second word row after creating pAlpha twice at clock 0. -/
def rowAlpha2 : WordRow := ⟨2, "alpha", none, none, none, none, none, 0⟩

/-- The store after creating pAlpha twice in the empty store at clock 0. -/
def dbAlphaAlpha : DB :=
  ⟨[rowAlpha, rowAlpha2],
   [⟨1, 1, "new", none, some 0⟩, ⟨2, 2, "new", none, some 0⟩], 2, 2⟩

/-- The store after one creation of pAlpha whose words INSERT ran at
clock 0 and whose progress INSERT ran at clock 1: the request straddled a
second boundary between its two statements. -/
def dbSplitSecond : DB :=
  ⟨[rowAlpha], [⟨1, 1, "new", none, some 1⟩], 1, 1⟩

/-! ### The claims -/

/-- Claim C1, counterexample: create word followed by list words does not
always return the new Word first. In the empty store, create alpha at
clock 0, then create beta also at clock 0 (the timestamps tie, as they do
for two requests inside the same second); the second creation answers
id 2, but list words puts the row with id 1 first, because ORDER BY
created_at DESC leaves rows with equal timestamps in insertion order. -/
theorem c1_new_word_listed_first_counterexample :
    createWord DB.empty pAlpha 0 0 = Except.ok (dbAlpha, 1) ∧
    createWord dbAlpha pBeta 0 0 = Except.ok (dbTie, 2) ∧
    (listWords dbTie).head? = some rowAlpha ∧
    rowAlpha.id ≠ 2 :=
  ⟨rfl, rfl, rfl, by decide⟩

/-- Claim C1 (amended): for any successful creation on a well-formed
store, the assigned identifier is distinct from the identifier of every
previously existing Word, unconditionally; and whenever the creation
instant is strictly later than the creation timestamp of every Word
already in the store, list words additionally returns the newly created
Word (the payload fields with the assigned id and timestamp) as the first
element. Without the strict-timestamp guard the first-element part can
fail on timestamp ties, as the counterexample shows. -/
theorem c1_new_word_listed_first_amended (db : DB) (p : Payload)
    (nowW nowP : Nat) (db1 : DB) (id : Nat) (hInv : db.Inv)
    (h : createWord db p nowW nowP = Except.ok (db1, id)) :
    (∀ w ∈ db.words, w.id ≠ id) ∧
    ((∀ w ∈ db.words, w.created_at < nowW) →
      ∃ w rest, p.word = some w ∧
        listWords db1 = newWordRow db p nowW w :: rest ∧
        (newWordRow db p nowW w).id = id) := by
  obtain ⟨w, hw, hid, hdb⟩ := createWord_ok_inversion h
  subst hdb
  constructor
  · intro x hx
    have := hInv.1 x hx
    omega
  · intro hlate
    obtain ⟨t, ht⟩ := sortDesc_append_singleton db.words (newWordRow db p nowW w)
      (fun y hy => hlate y hy)
    exact ⟨w, t, hw, ht, hid.symm⟩

/-- Claim C1 amended, witness: creating alpha in the empty store assigns
the fresh identifier 1 (no prior Word has it) and, clock 0 being strictly
later than every (vacuous) stored timestamp, lists it first. -/
theorem c1_new_word_listed_first_amended_witness :
    (∀ w ∈ DB.empty.words, w.id ≠ 1) ∧
    (∃ w rest, pAlpha.word = some w ∧
      listWords dbAlpha = newWordRow DB.empty pAlpha 0 w :: rest ∧
      (newWordRow DB.empty pAlpha 0 w).id = 1) :=
  ⟨(c1_new_word_listed_first_amended DB.empty pAlpha 0 0 dbAlpha 1
      Inv_empty rfl).1,
   (c1_new_word_listed_first_amended DB.empty pAlpha 0 0 dbAlpha 1
      Inv_empty rfl).2 (by simp [DB.empty])⟩

/-- Claim C2, counterexample: next_review need not equal the Word's
creation instant. The words INSERT evaluates CURRENT_TIMESTAMP and the
separate progress INSERT evaluates datetime, two per-statement clock
reads; when the second ticks between them (here 0 then 1) the stored
created_at is 0 while the progress row's next_review is 1. -/
theorem c2_next_review_equals_creation_counterexample :
    createWord DB.empty pAlpha 0 1 = Except.ok (dbSplitSecond, 1) ∧
    dbSplitSecond.words.map WordRow.created_at = [0] ∧
    (progressFor dbSplitSecond 1).map (fun q => q.next_review) = [some 1] ∧
    some (1 : Nat) ≠ some (0 : Nat) :=
  ⟨rfl, rfl, rfl, by decide⟩

/-- Claim C2 (amended): after any sequence of create word operations from
the empty store, every created Word has exactly one Progress row
referencing it, with status "new" and a non-null next-review timestamp;
and when every request of the sequence completed within a single clock
second (its two INSERT statements observed the same clock value), that
next-review timestamp moreover equals the instant of the Word's creation.
Equality can fail when a request straddles a second boundary, as the
counterexample shows. -/
theorem c2_progress_row_invariant_amended (ops : List (Payload × Nat × Nat)) :
    (∀ w ∈ (runCreates DB.empty ops).words,
      (progressFor (runCreates DB.empty ops) w.id).map
        (fun q => (q.status, q.next_review.isSome)) = [("new", true)]) ∧
    ((∀ x ∈ ops, x.2.1 = x.2.2) →
      ∀ w ∈ (runCreates DB.empty ops).words,
        (progressFor (runCreates DB.empty ops) w.id).map
          (fun q => (q.status, q.next_review)) = [("new", some w.created_at)]) :=
  ⟨fun w hw => (Inv_runCreates DB.empty Inv_empty ops).2.2.2 w hw,
   fun hsame w hw =>
     SyncInv_runCreates DB.empty Inv_empty SyncInv_empty ops hsame w hw⟩

/-- Claim C2 amended, witness: after one creation whose two statements
both ran at clock 0, the single word has exactly one progress row with
status "new", a non-null next_review, and next_review equal to its
creation instant. -/
theorem c2_progress_row_invariant_amended_witness :
    ((progressFor (runCreates DB.empty [(pAlpha, 0, 0)]) rowAlpha.id).map
      (fun q => (q.status, q.next_review.isSome)) = [("new", true)]) ∧
    ((progressFor (runCreates DB.empty [(pAlpha, 0, 0)]) rowAlpha.id).map
      (fun q => (q.status, q.next_review)) = [("new", some rowAlpha.created_at)]) :=
  ⟨(c2_progress_row_invariant_amended [(pAlpha, 0, 0)]).1 rowAlpha (by decide),
   (c2_progress_row_invariant_amended [(pAlpha, 0, 0)]).2 (by decide)
     rowAlpha (by decide)⟩

/-- Claim C3 is a code bug the spec itself flags: the route performs no
validation, so a payload whose surface text is the empty string is
accepted, a Word row with empty surface text is stored, and the handler
answers with the new id instead of a validation error. -/
theorem c3_empty_surface_text_is_accepted :
    createWord DB.empty ⟨some "", none, none, none, none, none⟩ 0 0 =
      Except.ok (⟨[⟨1, "", none, none, none, none, none, 0⟩],
        [⟨1, 1, "new", none, some 0⟩], 1, 1⟩, 1) ∧
    handle DB.empty 0 0 (Request.createWord ⟨some "", none, none, none, none, none⟩) =
      (⟨[⟨1, "", none, none, none, none, none, 0⟩],
        [⟨1, 1, "new", none, some 0⟩], 1, 1⟩, Response.created 1) :=
  ⟨rfl, rfl⟩

/-- Claim C4: across any sequence of create word operations from the empty
store, the next assigned identifier is strictly greater than every
identifier already in the store, and the identifiers in the store are
strictly increasing in insertion order, so no identifier is ever assigned
to two different Words. -/
theorem c4_ids_monotone_never_reused (ops : List (Payload × Nat × Nat))
    (p : Payload) (nowW nowP : Nat) (db1 : DB) (id : Nat)
    (h : createWord (runCreates DB.empty ops) p nowW nowP =
      Except.ok (db1, id)) :
    (∀ w ∈ (runCreates DB.empty ops).words, w.id < id) ∧
    db1.words.Pairwise (fun a b => a.id < b.id) := by
  have hInv := Inv_runCreates DB.empty Inv_empty ops
  obtain ⟨w, hw, hid, hdb⟩ := createWord_ok_inversion h
  constructor
  · intro x hx
    have := hInv.1 x hx
    omega
  · exact (Inv_createWord hInv h).2.2.1

/-- Claim C4, witness: the first creation in the empty store assigns
identifier 1, above every (vacuous) existing identifier. -/
theorem c4_ids_monotone_never_reused_witness :
    (∀ w ∈ (runCreates DB.empty []).words, w.id < 1) ∧
    dbAlpha.words.Pairwise (fun a b => a.id < b.id) :=
  c4_ids_monotone_never_reused [] pAlpha 0 0 dbAlpha 1 rfl

/-- Claim C5: after any sequence of valid creations from the empty store,
get stats returns the number of creations, and on every store state the
stats count equals the length of the list words result. -/
theorem c5_stats_counts_word_rows (ops : List (Payload × Nat × Nat))
    (hvalid : ∀ x ∈ ops, (x.1).word.isSome) :
    stats (runCreates DB.empty ops) = ops.length ∧
    ∀ db : DB, stats db = (listWords db).length := by
  constructor
  · have hlen := runCreates_words_length DB.empty ops hvalid
    simp only [DB.empty, List.length_nil, Nat.zero_add] at hlen
    exact hlen
  · intro db
    rw [stats, listWords, length_sortDesc]

/-- Claim C5, witness: two valid creations give a stats count of 2. -/
theorem c5_stats_counts_word_rows_witness :
    stats (runCreates DB.empty [(pAlpha, 0, 0), (pBeta, 0, 0)]) = 2 ∧
    ∀ db : DB, stats db = (listWords db).length :=
  c5_stats_counts_word_rows [(pAlpha, 0, 0), (pBeta, 0, 0)] (by decide)

/-- Claim C6: the payload fields of a successful creation are stored and
listed verbatim: the store gains exactly one row holding the payload's
surface text, context sentence, meaning, both phonetics and image
reference unchanged, extended only with the assigned id and the creation
timestamp, and list words returns that exact row. -/
theorem c6_fields_stored_unchanged (db : DB) (p : Payload) (nowW nowP : Nat)
    (db1 : DB) (id : Nat) (w : String) (hw : p.word = some w)
    (h : createWord db p nowW nowP = Except.ok (db1, id)) :
    db1.words = db.words ++
      [⟨id, w, p.context_sentence, p.meaning, p.phonetic_us, p.phonetic_uk,
        p.image_url, nowW⟩] ∧
    (⟨id, w, p.context_sentence, p.meaning, p.phonetic_us, p.phonetic_uk,
        p.image_url, nowW⟩ : WordRow) ∈ listWords db1 := by
  rw [createWord_some db p nowW nowP w hw] at h
  have h2 := Except.ok.inj h
  have hdb : db1 = afterCreate db p nowW nowP w := (Prod.mk.injEq .. ▸ h2).1.symm
  have hid : id = db.wordSeq + 1 := (Prod.mk.injEq .. ▸ h2).2.symm
  subst hdb
  subst hid
  refine ⟨rfl, ?_⟩
  rw [listWords, mem_sortDesc]
  exact List.mem_append_right _ (List.mem_singleton.mpr rfl)

/-- Claim C6, witness: creating alpha stores and lists its fields
verbatim with id 1 and timestamp 0. -/
theorem c6_fields_stored_unchanged_witness :
    dbAlpha.words = DB.empty.words ++
      [⟨1, "alpha", none, none, none, none, none, 0⟩] ∧
    (⟨1, "alpha", none, none, none, none, none, 0⟩ : WordRow) ∈
      listWords dbAlpha :=
  c6_fields_stored_unchanged DB.empty pAlpha 0 0 dbAlpha 1 "alpha" rfl rfl

/-- Claim C7: duplicate surface texts are permitted. Two successive
creations of the same payload both succeed, are assigned the distinct
identifiers wordSeq+1 and wordSeq+2, and the final table holds the
original rows followed by both new rows, so neither call modifies or
replaces the record created by the other. -/
theorem c7_duplicate_words_permitted (db : DB) (p : Payload)
    (n1 m1 n2 m2 : Nat) (w : String) (hw : p.word = some w) :
    createWord db p n1 m1 =
      Except.ok (afterCreate db p n1 m1 w, db.wordSeq + 1) ∧
    createWord (afterCreate db p n1 m1 w) p n2 m2 =
      Except.ok (afterCreate (afterCreate db p n1 m1 w) p n2 m2 w,
        db.wordSeq + 2) ∧
    db.wordSeq + 1 ≠ db.wordSeq + 2 ∧
    (afterCreate (afterCreate db p n1 m1 w) p n2 m2 w).words =
      db.words ++ [newWordRow db p n1 w,
        newWordRow (afterCreate db p n1 m1 w) p n2 w] ∧
    (newWordRow db p n1 w).id ≠
      (newWordRow (afterCreate db p n1 m1 w) p n2 w).id := by
  refine ⟨createWord_some db p n1 m1 w hw, createWord_some _ p n2 m2 w hw,
    by omega, ?_, ?_⟩
  · show (db.words ++ [newWordRow db p n1 w]) ++
      [newWordRow (afterCreate db p n1 m1 w) p n2 w] = _
    rw [List.append_assoc]
    rfl
  · show db.wordSeq + 1 ≠ db.wordSeq + 1 + 1
    omega

/-- Claim C7, witness: creating alpha twice at clock 0 yields ids 1 and 2
and a table holding both records. -/
theorem c7_duplicate_words_permitted_witness :
    createWord DB.empty pAlpha 0 0 = Except.ok (dbAlpha, 1) ∧
    createWord dbAlpha pAlpha 0 0 = Except.ok (dbAlphaAlpha, 2) ∧
    (1 : Nat) ≠ 2 ∧
    dbAlphaAlpha.words = DB.empty.words ++ [rowAlpha, rowAlpha2] ∧
    rowAlpha.id ≠ rowAlpha2.id :=
  c7_duplicate_words_permitted DB.empty pAlpha 0 0 0 0 "alpha" rfl

/-- Claim C8: list words and get stats have no side effects. On every
store state, either read leaves the state exactly as it was, and a second
call with no intervening write returns the identical response. -/
theorem c8_reads_have_no_side_effects (db : DB) (nowW nowP : Nat) :
    handle db nowW nowP Request.listWords =
      (db, Response.wordList (listWords db)) ∧
    handle db nowW nowP Request.getStats =
      (db, Response.statsCount (stats db)) ∧
    (handle (handle db nowW nowP Request.listWords).1 nowW nowP
        Request.listWords).2 =
      (handle db nowW nowP Request.listWords).2 ∧
    (handle (handle db nowW nowP Request.getStats).1 nowW nowP
        Request.getStats).2 =
      (handle db nowW nowP Request.getStats).2 :=
  ⟨rfl, rfl, rfl, rfl⟩

/-- Claim C9: two racing create word calls serialize (the store admits a
single writer and every handler is synchronous), and in either
serialization each call receives a distinct identifier and a subsequent
list words shows both created records. Stated for an arbitrary ordered
pair of valid payloads, which covers both interleavings. -/
theorem c9_racing_creates_distinct_ids (db : DB) (p1 p2 : Payload)
    (a1 b1 a2 b2 : Nat) (w1 w2 : String) (h1 : p1.word = some w1)
    (h2 : p2.word = some w2) :
    ∃ db1 id1 db2 id2,
      createWord db p1 a1 b1 = Except.ok (db1, id1) ∧
      createWord db1 p2 a2 b2 = Except.ok (db2, id2) ∧
      id1 ≠ id2 ∧
      (∃ r ∈ listWords db2, r.id = id1) ∧
      (∃ r ∈ listWords db2, r.id = id2) := by
  refine ⟨afterCreate db p1 a1 b1 w1, db.wordSeq + 1,
    afterCreate (afterCreate db p1 a1 b1 w1) p2 a2 b2 w2, db.wordSeq + 2,
    createWord_some db p1 a1 b1 w1 h1, createWord_some _ p2 a2 b2 w2 h2,
    by omega, ?_, ?_⟩
  · refine ⟨newWordRow db p1 a1 w1, ?_, rfl⟩
    rw [listWords, mem_sortDesc]
    exact List.mem_append_left _
      (List.mem_append_right _ (List.mem_singleton.mpr rfl))
  · refine ⟨newWordRow (afterCreate db p1 a1 b1 w1) p2 a2 w2, ?_, rfl⟩
    rw [listWords, mem_sortDesc]
    exact List.mem_append_right _ (List.mem_singleton.mpr rfl)

/-- Claim C9, witness: alpha and beta created back to back from the empty
store receive distinct identifiers and both appear in list words. -/
theorem c9_racing_creates_distinct_ids_witness :
    ∃ db1 id1 db2 id2,
      createWord DB.empty pAlpha 0 0 = Except.ok (db1, id1) ∧
      createWord db1 pBeta 0 0 = Except.ok (db2, id2) ∧
      id1 ≠ id2 ∧
      (∃ r ∈ listWords db2, r.id = id1) ∧
      (∃ r ∈ listWords db2, r.id = id2) :=
  c9_racing_creates_distinct_ids DB.empty pAlpha pBeta 0 0 0 0
    "alpha" "beta" rfl rfl

/-- Claim C10: a null or absent surface text makes the word INSERT itself
fail on the NOT NULL constraint, before the progress INSERT is reached,
and the handler leaves the store exactly as it was: no Word row and no
Progress row is added by the failed call. -/
theorem c10_null_surface_text_leaves_store_unchanged (db : DB)
    (p : Payload) (nowW nowP : Nat) (hw : p.word = none) :
    insertWord db p nowW =
      Except.error "NOT NULL constraint failed: words.word" ∧
    handle db nowW nowP (Request.createWord p) =
      (db, Response.serverError "NOT NULL constraint failed: words.word") := by
  constructor
  · simp [insertWord, hw]
  · simp [handle, createWord, insertWord, hw]

/-- Claim C10, witness: a payload with null surface text fails the word
INSERT and leaves the empty store empty. -/
theorem c10_null_surface_text_leaves_store_unchanged_witness :
    insertWord DB.empty pNull 0 =
      Except.error "NOT NULL constraint failed: words.word" ∧
    handle DB.empty 0 0 (Request.createWord pNull) =
      (DB.empty, Response.serverError "NOT NULL constraint failed: words.word") :=
  c10_null_surface_text_leaves_store_unchanged DB.empty pNull 0 0 rfl

end VisionSpeak
